import Mathlib

/-!
Shallow embedding of `src/aeneas/analyzecontainer.py` (class `AnalyzeContainer`):
configuration-driven discovery of text/audio pairs in a container and
construction of the corresponding Job/Task graph.

Conventions of the embedding:
* Python strings are Lean `String`s (sequences of code points, as in Python 3).
* Python `str.replace`, `str.split`, `str.startswith`, slicing and
  `os.path.splitext`/`os.path.basename` are modelled character-exactly on
  `List Char`.
* Python dicts (used by `_match_files_flat_hierarchy`) are modelled as
  association lists with insertion-ordered keys and last-write-wins values,
  exactly the observable behaviour of the source.
* Compiled regular expressions are abstracted as a pair of boolean matchers
  (`re.search` = anywhere-match, `re.match` = anchored-at-start match);
  concrete theorems instantiate them with literal (metacharacter-free)
  patterns, for which `re.search` is substring search and `re.match` is a
  string-prefix test.
* Exceptions (`KeyError` escaping `_create_task` / `_analyze_txt_config`)
  are modelled by `Option`: `none` = the call aborts with an exception.
-/

namespace AnalyzeContainerModel

/-! ### Basic Python string primitives over `List Char` -/

/-- `dropPrefixOpt pat s` returns `some rest` when `pat` is a prefix of `s`
(`rest` is what follows), and `none` otherwise.  This is the anchored
single-position match used to model both `str.startswith` and literal
regex matching. -/
def dropPrefixOpt : List Char → List Char → Option (List Char)
  | [], s => some s
  | _ :: _, [] => none
  | p :: ps, c :: cs => if c = p then dropPrefixOpt ps cs else none

/-- `containsSub pat s` holds when `pat` occurs in `s` as a contiguous
substring (Python `pat in s`, and `re.search` for a literal pattern). -/
def containsSub (pat : List Char) : List Char → Bool
  | [] => (dropPrefixOpt pat []).isSome
  | c :: cs => (dropPrefixOpt pat (c :: cs)).isSome || containsSub pat cs

/-- One fuel-indexed pass of Python `str.replace`: scan left to right; at each
position, if the (nonempty) pattern matches, emit the replacement and skip the
matched characters, otherwise emit one character and continue.  The fuel is an
upper bound on the number of scan steps; `fuel = s.length` always suffices
because every step consumes at least one character of `s`. -/
def replFuel (pat rep : List Char) : Nat → List Char → List Char
  | 0, s => s
  | _ + 1, [] => []
  | f + 1, c :: cs =>
    match dropPrefixOpt pat (c :: cs) with
    | some rest => rep ++ replFuel pat rep f rest
    | none => c :: replFuel pat rep f cs

/-- Python `s.replace(old, new)` on `List Char`.  For an empty `old`, Python
inserts `new` at every character boundary (`"ab".replace("", "X") = "XaXbX"`);
otherwise it is the left-to-right non-overlapping scan `replFuel`. -/
def pyReplaceL (s old new : List Char) : List Char :=
  match old with
  | [] => new ++ (s.map (fun c => c :: new)).flatten
  | _ :: _ => replFuel old new s.length s

/-- Python `s.replace(old, new)` on `String`. -/
def pyReplaceS (s old new : String) : String :=
  ⟨pyReplaceL s.data old.data new.data⟩

/-- Python `s.startswith(t)` (string prefix, not path-aware). -/
def pyStartswith (s t : String) : Bool :=
  (dropPrefixOpt t.data s.data).isSome

/-- Python slicing `s[n:]` by code points. -/
def pyDrop (s : String) (n : Nat) : String :=
  ⟨s.data.drop n⟩

/-- Python `s.split(sep)` for a single-character separator: always returns at
least one (possibly empty) component; `"".split(sep) = [""]`. -/
def pySplitL (sep : Char) : List Char → List (List Char)
  | [] => [[]]
  | c :: cs =>
    if c = sep then [] :: pySplitL sep cs
    else
      match pySplitL sep cs with
      | [] => [[c]]
      | t :: ts => (c :: t) :: ts

/-- Python `s.split(sep)` on `String`. -/
def pySplit (sep : Char) (s : String) : List String :=
  (pySplitL sep s.data).map (fun l => ⟨l⟩)

/-! ### Boundary helpers of the repository that are not under `src/`
(`aeneas/globalfunctions.py`, `aeneas/globalconstants.py`,
`aeneas/hierarchytype.py`). -/

/-- Modelled from the spec: `gf.norm_join` (in `aeneas/globalfunctions.py`,
not under `src/`) joins two relative paths with the single normalized path
separator used throughout container entries (§3 "entry paths … using a
normalized path separator", §4.2 "Computes `target = join(root, relativePath)`").
An empty left operand acts as a neutral element (used when the configuration
directory is the container root). -/
def norm_join (a b : String) : String :=
  if a = "" then b else a ++ "/" ++ b

/-- Modelled from the spec: `gc.PPV_OS_TASK_PREFIX` (in
`aeneas/globalconstants.py`, not under `src/`) is the fixed identifier
placeholder token substituted into output paths and reference templates
(§4.5, glossary "Placeholder substitution").  Its exact spelling is
immaterial to every claim; what matters is that it is one fixed nonempty
token. -/
def PPV_OS_TASK_PREFIX : String := "$PREFIX"

/-- Modelled from the spec: `HierarchyType.FLAT` (in
`aeneas/hierarchytype.py`, not under `src/`): hierarchy kinds are the string
values `"flat"` / `"paged"` carried in the configuration mapping and compared
by string equality. -/
def HierarchyType_FLAT : String := "flat"

/-- Modelled from the spec: `HierarchyType.PAGED`, see `HierarchyType_FLAT`. -/
def HierarchyType_PAGED : String := "paged"

/-- Modelled from the spec: `os.path.basename` for entry paths with the
normalized separator — the part of the path after the last separator. -/
def basenameL (s : List Char) : List Char :=
  (s.reverse.takeWhile (fun c => c ≠ '/')).reverse

/-- Modelled from the spec and the docstring of `_match_files_flat_hierarchy`
(src/aeneas/analyzecontainer.py:486-497): `gf.file_name_without_extension`
(in `aeneas/globalfunctions.py`, not under `src/`) maps an entry path to its
file name (directory components dropped) with the final extension removed —
the docstring examples pin this down: `foo/text/a.txt ↦ a`,
`foo/audio/a.mp3 ↦ a`, `foo/res/c.txt ↦ c`.  The extension split follows
`os.path.splitext`: split at the last dot of the base name unless every
character before that dot is itself a dot (so `.bashrc ↦ .bashrc`). -/
def file_name_without_extension (path : String) : String :=
  let b := basenameL path.data
  let afterDot := b.reverse.takeWhile (fun c => c ≠ '.')
  if afterDot.length = b.length then ⟨b⟩
  else
    let stem := b.take (b.length - afterDot.length - 1)
    if stem.all (fun c => c = '.') then ⟨b⟩ else ⟨stem⟩

/-! ### Python `sorted` on strings: lexicographic order by code points -/

/-- Lexicographic `≤` on code-point sequences, the comparison Python's
`sorted` uses on strings. -/
def strLeb : List Char → List Char → Bool
  | [], _ => true
  | _ :: _, [] => false
  | a :: as, b :: bs => if a = b then strLeb as bs else decide (a < b)

/-- The ordering relation of Python's `sorted` on strings. -/
def pyLe (a b : String) : Prop := strLeb a.data b.data = true

instance : DecidableRel pyLe := fun a b =>
  inferInstanceAs (Decidable (strLeb a.data b.data = true))

theorem strLeb_total : ∀ a b : List Char, strLeb a b = true ∨ strLeb b a = true
  | [], _ => Or.inl rfl
  | _ :: _, [] => Or.inr rfl
  | a :: as, b :: bs => by
    by_cases hab : a = b
    · subst hab
      simpa [strLeb] using strLeb_total as bs
    · rcases lt_or_gt_of_ne hab with h | h
      · exact Or.inl (by simp [strLeb, hab, h])
      · exact Or.inr (by simp [strLeb, Ne.symm hab, h])

theorem strLeb_trans : ∀ a b c : List Char,
    strLeb a b = true → strLeb b c = true → strLeb a c = true
  | [], _, _, _, _ => rfl
  | _ :: _, [], _, h, _ => by simp [strLeb] at h
  | _ :: _, _ :: _, [], _, h => by simp [strLeb] at h
  | a :: as, b :: bs, c :: cs, h₁, h₂ => by
    by_cases hab : a = b <;> by_cases hbc : b = c
    · subst hab; subst hbc
      simp only [strLeb, if_pos rfl] at h₁ h₂ ⊢
      exact strLeb_trans as bs cs h₁ h₂
    · subst hab
      simpa [strLeb, hbc] using h₂
    · subst hbc
      simpa [strLeb, hab] using h₁
    · simp only [strLeb, if_neg hab] at h₁
      simp only [strLeb, if_neg hbc] at h₂
      have hac : a < c := lt_trans (of_decide_eq_true h₁) (of_decide_eq_true h₂)
      simp [strLeb, ne_of_lt hac, hac]

instance : IsTotal String pyLe :=
  ⟨fun a b => strLeb_total a.data b.data⟩

instance : IsTrans String pyLe :=
  ⟨fun a b c => strLeb_trans a.data b.data c.data⟩

/-- Python `sorted` on a list of strings. -/
def pySorted (l : List String) : List String :=
  List.insertionSort pyLe l

theorem pySorted_sorted (l : List String) : List.Sorted pyLe (pySorted l) :=
  List.sorted_insertionSort pyLe l

theorem pySorted_perm (l : List String) : (pySorted l).Perm l :=
  List.perm_insertionSort pyLe l

theorem mem_pySorted {x : String} {l : List String} : x ∈ pySorted l ↔ x ∈ l :=
  (pySorted_perm l).mem_iff

/-! ### Abstract compiled regular expressions -/

/-- A compiled regular expression, abstracted to its two observable uses in
the source: `search s` models `re.search(rgx, s) != None` (match anywhere)
and `matchAtStart s` models `re.match(rgx, s) != None` (match anchored at the
start). -/
structure CompiledRegex where
  search : String → Bool
  matchAtStart : String → Bool

/-- The compiled regex of a literal, metacharacter-free pattern:
`re.search` degenerates to substring search and `re.match` to a
string-prefix test. -/
def litRegex (pat : String) : CompiledRegex :=
  { search := fun s => containsSub pat.data s.data
    matchAtStart := fun s => (dropPrefixOpt pat.data s.data).isSome }

/-! ### `_replace_placeholder` and `_compute_sync_map_file_path`
(src/aeneas/analyzecontainer.py:407-445) -/

/-- `_replace_placeholder(string, custom_id)`
(src/aeneas/analyzecontainer.py:407-418): `None` passes through, otherwise
every occurrence of the placeholder token is replaced by `custom_id`
(Python `str.replace`). -/
def _replace_placeholder (string : Option String) (custom_id : String) : Option String :=
  match string with
  | none => none
  | some s => some (pyReplaceS s PPV_OS_TASK_PREFIX custom_id)

/-- `_compute_sync_map_file_path(root, hierarchy_type, custom_id, file_name)`
(src/aeneas/analyzecontainer.py:420-445): start from `root`; in the paged
output hierarchy first join the custom id; join the file name; then replace
the placeholder in the joined path.  (`_replace_placeholder` on a non-`None`
string is `pyReplaceS`.) -/
def _compute_sync_map_file_path (root : String) (hierarchy_type : String)
    (custom_id : String) (file_name : String) : String :=
  let pfx := if hierarchy_type = HierarchyType_PAGED then norm_join root custom_id else root
  let file_name_joined := norm_join pfx file_name
  pyReplaceS file_name_joined PPV_OS_TASK_PREFIX custom_id

/-! ### `_find_files` (src/aeneas/analyzecontainer.py:447-482) -/

/-- The entry filter's target directory: `root` joined with the relative path
when one is given (src/aeneas/analyzecontainer.py:465-468). -/
def findFilesTarget (root : String) (relative_path : Option String) : String :=
  match relative_path with
  | some rp => norm_join root rp
  | none => root

/-- `_find_files(entries, root, relative_path, file_name_regex)`
(src/aeneas/analyzecontainer.py:447-482): keep each entry that starts with
`target` as a plain string prefix (`entry.startswith(target)`) and whose
suffix `entry[len(target)+1:]` matches the regex via `re.search`
(match anywhere); return the kept entries sorted. -/
def _find_files (entries : List String) (root : String)
    (relative_path : Option String) (file_name_regex : CompiledRegex) : List String :=
  let target := findFilesTarget root relative_path
  pySorted (entries.filter (fun entry =>
    pyStartswith entry target &&
      file_name_regex.search (pyDrop entry (target.length + 1))))

/-! ### `_match_directories` (src/aeneas/analyzecontainer.py:527-576) -/

/-- The per-entry candidate of `_match_directories`
(src/aeneas/analyzecontainer.py:561-575): when the entry starts with `root`
as a plain string prefix (`entry.startswith(root)`), drop `len(root)+1`
characters, split on the path separator, and if the split has at least two
components and the first one matches the regex via `re.match` (anchored at
the start), yield that first component. -/
def matchDirCandidate (root : String) (rgx : CompiledRegex) (entry : String) : Option String :=
  if pyStartswith entry root then
    match pySplit '/' (pyDrop entry (root.length + 1)) with
    | p :: _ :: _ => if rgx.matchAtStart p then some p else none
    | _ => none
  else none

/-- `_match_directories(entries, root, regex_string)`
(src/aeneas/analyzecontainer.py:527-576): collect the candidates of all
entries into a set (dedup) and return them sorted. -/
def _match_directories (entries : List String) (root : String)
    (rgx : CompiledRegex) : List String :=
  pySorted (entries.filterMap (matchDirCandidate root rgx)).dedup

/-! ### Python dicts, as used by `_match_files_flat_hierarchy`
(src/aeneas/analyzecontainer.py:484-525): insertion-ordered keys,
last-write-wins values. -/

/-- `d[k] = v` on a Python dict: if the key is present its value is
overwritten in place (keeping the key's original position), otherwise the
pair is appended. -/
def dictInsert (d : List (String × String)) (k v : String) : List (String × String) :=
  match d with
  | [] => [(k, v)]
  | (k', v') :: rest => if k' = k then (k', v) :: rest else (k', v') :: dictInsert rest k v

/-- `d[k]` / `k in d` on a Python dict. -/
def dictLookup (d : List (String × String)) (k : String) : Option String :=
  match d with
  | [] => none
  | (k', v') :: rest => if k = k' then some v' else dictLookup rest k

/-- The key-to-entry dict built by the loops at
src/aeneas/analyzecontainer.py:510-517: `d[file_name_without_extension(f)] = f`
for each file in order. -/
def buildDict (files : List String) : List (String × String) :=
  files.foldl (fun d f => dictInsert d (file_name_without_extension f) f) []

/-- `_match_files_flat_hierarchy(text_files, audio_files)`
(src/aeneas/analyzecontainer.py:484-525): build the two key-to-entry dicts,
then for each key of the text dict in order, emit
`[key, d_text[key], d_audio[key]]` when the key is also in the audio dict.
(`d_text[kv.1] = kv.2` because dict keys are unique.) -/
def _match_files_flat_hierarchy (text_files audio_files : List String) :
    List (String × String × String) :=
  let d_text := buildDict text_files
  let d_audio := buildDict audio_files
  d_text.filterMap (fun kv =>
    match dictLookup d_audio kv.1 with
    | some audio => some (kv.1, kv.2, audio)
    | none => none)

/-- The last entry of `files` whose pairing key is `k` — the entry a Python
dict maps `k` to after all insertions. -/
def lastWithKey (k : String) (files : List String) : Option String :=
  (files.filter (fun f => file_name_without_extension f = k)).getLast?

/-! ### Configuration keys, Task, Job -/

/-- Modelled from the spec: the configuration key vocabulary (§6) of
`aeneas/globalconstants.py` (not under `src/`).  Only the distinctness of
the key names matters; the values below follow the spec's descriptions. -/
def PPN_JOB_IS_HIERARCHY_TYPE : String := "is_hierarchy_type"

/-- Modelled from the spec: input hierarchy root, see `PPN_JOB_IS_HIERARCHY_TYPE`. -/
def PPN_JOB_IS_HIERARCHY_PREFIX : String := "is_hierarchy_root"

/-- Modelled from the spec: output hierarchy root, see `PPN_JOB_IS_HIERARCHY_TYPE`. -/
def PPN_JOB_OS_HIERARCHY_PREFIX : String := "os_hierarchy_root"

/-- Modelled from the spec: output hierarchy kind, see `PPN_JOB_IS_HIERARCHY_TYPE`. -/
def PPN_JOB_OS_HIERARCHY_TYPE : String := "os_hierarchy_type"

/-- Modelled from the spec: text relative path, see `PPN_JOB_IS_HIERARCHY_TYPE`. -/
def PPN_JOB_IS_TEXT_FILE_RELATIVE_PATH : String := "is_text_file_relative_path"

/-- Modelled from the spec: text file-name pattern, see `PPN_JOB_IS_HIERARCHY_TYPE`. -/
def PPN_JOB_IS_TEXT_FILE_NAME_REGEX : String := "is_text_file_name_regex"

/-- Modelled from the spec: audio relative path, see `PPN_JOB_IS_HIERARCHY_TYPE`. -/
def PPN_JOB_IS_AUDIO_FILE_RELATIVE_PATH : String := "is_audio_file_relative_path"

/-- Modelled from the spec: audio file-name pattern, see `PPN_JOB_IS_HIERARCHY_TYPE`. -/
def PPN_JOB_IS_AUDIO_FILE_NAME_REGEX : String := "is_audio_file_name_regex"

/-- Modelled from the spec: paged-directory name pattern, see `PPN_JOB_IS_HIERARCHY_TYPE`. -/
def PPN_JOB_IS_TASK_DIRECTORY_NAME_REGEX : String := "is_task_directory_name_regex"

/-- Modelled from the spec: Job-scope language, see `PPN_JOB_IS_HIERARCHY_TYPE`. -/
def PPN_JOB_LANGUAGE : String := "job_language"

/-- Modelled from the spec: Task-scope language override, see `PPN_JOB_IS_HIERARCHY_TYPE`. -/
def PPN_TASK_LANGUAGE : String := "task_language"

/-- Modelled from the spec: per-task output file name, see `PPN_JOB_IS_HIERARCHY_TYPE`. -/
def PPN_TASK_OS_FILE_NAME : String := "os_task_file_name"

/-- Modelled from the spec: output audio-reference template, see
`PPN_JOB_IS_HIERARCHY_TYPE`. -/
def PPN_TASK_OS_FILE_SMIL_AUDIO_REF : String := "os_task_file_smil_audio_ref"

/-- Modelled from the spec: output page-reference template, see
`PPN_JOB_IS_HIERARCHY_TYPE`. -/
def PPN_TASK_OS_FILE_SMIL_PAGE_REF : String := "os_task_file_smil_page_ref"

/-- A parsed configuration mapping (`gf.config_string_to_dict` output):
key-value pairs; `pget` is `parameters[k]` returning `none` on a missing key
(Python `KeyError`). -/
def ConfigParams : Type := List (String × String)

/-- `parameters[k]`, `none` when absent. -/
def pget (parameters : ConfigParams) (k : String) : Option String :=
  dictLookup parameters k

/-- The fields of a constructed Task that `_create_task` populates
(src/aeneas/analyzecontainer.py:344-405).  The SMIL reference templates may
be absent (`None`) and then pass through `_replace_placeholder` unchanged. -/
structure Task where
  description : String
  language : String
  custom_id : String
  text_file_path : String
  audio_file_path : String
  sync_map_file_path : String
  os_file_smil_audio_ref : Option String
  os_file_smil_page_ref : Option String
deriving DecidableEq, Repr

/-- The Job assembled by the analysis: its configuration string and the
Tasks in discovery order (src/aeneas/analyzecontainer.py:119-121, 251-252). -/
structure Job where
  config_string : String
  tasks : List Task
deriving DecidableEq, Repr

/-! ### `_create_task` (src/aeneas/analyzecontainer.py:344-405) -/

/-- The language resolution of `_create_task`
(src/aeneas/analyzecontainer.py:373-378): `parameters[PPN_TASK_LANGUAGE]`,
falling back on `KeyError` to `parameters[PPN_JOB_LANGUAGE]`; `none` means
the uncaught `KeyError` aborts the call. -/
def resolveLanguage (parameters : ConfigParams) : Option String :=
  match pget parameters PPN_TASK_LANGUAGE with
  | some l => some l
  | none => pget parameters PPN_JOB_LANGUAGE

/-- `_create_task(task_info, config_string, sync_map_root_directory,
job_os_hierarchy_type)` (src/aeneas/analyzecontainer.py:344-405), with
`task_info = (custom_id, text_path, audio_path)` and `parameters` the parsed
`config_string`.  `none` models the exception aborting the analysis call:
a `KeyError` when neither language key is present (lines 373-378), or the
error of joining an absent (`None`) output file name into the sync-map path
(line 386-391).  The language lookup happens first, as in the source. -/
def _create_task (task_info : String × String × String) (parameters : ConfigParams)
    (sync_map_root_directory : String) (job_os_hierarchy_type : String) : Option Task :=
  match resolveLanguage parameters with
  | none => none
  | some language =>
    match pget parameters PPN_TASK_OS_FILE_NAME with
    | none => none
    | some os_file_name =>
      some
        { description := "Task " ++ task_info.1
          language := language
          custom_id := task_info.1
          text_file_path := task_info.2.1
          audio_file_path := task_info.2.2
          sync_map_file_path := _compute_sync_map_file_path sync_map_root_directory
            job_os_hierarchy_type task_info.1 os_file_name
          os_file_smil_audio_ref := _replace_placeholder
            (pget parameters PPN_TASK_OS_FILE_SMIL_AUDIO_REF) task_info.1
          os_file_smil_page_ref := _replace_placeholder
            (pget parameters PPN_TASK_OS_FILE_SMIL_PAGE_REF) task_info.1 }

/-! ### The paged branch of `_analyze_txt_config`
(src/aeneas/analyzecontainer.py:193-249) -/

/-- What happens to one matched directory in the paged loop
(src/aeneas/analyzecontainer.py:203-249): a Task is built, or the directory
is skipped with the "More than one text file" diagnostic, the "More than one
audio file" diagnostic, or the silent "No text nor audio file" case. -/
inductive PageOutcome where
  | builtTask (t : Task)
  | ambiguousText
  | ambiguousAudio
  | emptyDir
deriving DecidableEq, Repr

/-- The Task carried by a `PageOutcome`, if any. -/
def builtTaskOf : PageOutcome → Option Task
  | .builtTask t => some t
  | _ => none

/-- The body of the paged loop for one matched directory
(src/aeneas/analyzecontainer.py:203-249): find the text and audio entries
under `tasks_root/matched_directory`; with exactly one of each, build a Task
(`none` = the construction's exception aborts the call); with more than one
text entry, skip with the "ambiguous text" diagnostic; otherwise with more
than one audio entry, skip with the "ambiguous audio" diagnostic; otherwise
skip silently. -/
def _paged_dir_outcome (entries : List String) (tasks_root_directory : String)
    (text_rel audio_rel : Option String) (text_rgx audio_rgx : CompiledRegex)
    (parameters : ConfigParams) (sync_map_root_directory : String)
    (job_os_hierarchy_type : String) (matched_directory : String) : Option PageOutcome :=
  let full := norm_join tasks_root_directory matched_directory
  let text_files := _find_files entries full text_rel text_rgx
  let audio_files := _find_files entries full audio_rel audio_rgx
  match text_files, audio_files with
  | [t0], [a0] =>
    Option.map PageOutcome.builtTask
      (_create_task (matched_directory, t0, a0) parameters sync_map_root_directory
        job_os_hierarchy_type)
  | tf, af =>
    if 1 < tf.length then some PageOutcome.ambiguousText
    else if 1 < af.length then some PageOutcome.ambiguousAudio
    else some PageOutcome.emptyDir

/-- The whole paged loop (src/aeneas/analyzecontainer.py:203-249) over a list
of matched directories: `none` when some directory's Task construction
raised (aborting the call), otherwise the Tasks of the directories that
built one, in order. -/
def _paged_tasks (entries : List String) (tasks_root_directory : String)
    (text_rel audio_rel : Option String) (text_rgx audio_rgx : CompiledRegex)
    (parameters : ConfigParams) (sync_map_root_directory : String)
    (job_os_hierarchy_type : String) (matched_directories : List String) :
    Option (List Task) :=
  Option.map (fun outs => outs.filterMap builtTaskOf)
    (matched_directories.mapM
      (_paged_dir_outcome entries tasks_root_directory text_rel audio_rel text_rgx
        audio_rgx parameters sync_map_root_directory job_os_hierarchy_type))

/-! ### `_analyze_txt_config` (src/aeneas/analyzecontainer.py:87-252) -/

/-- `_analyze_txt_config(config_string)` (src/aeneas/analyzecontainer.py:87-252)
for a given parsed configuration.  `config_string` is the raw configuration
(stored on the Job), `parameters = gf.config_string_to_dict(config_string)`
(the parsing itself is an excluded boundary, so the parsed mapping is passed
alongside), `config_dir` the directory of the configuration entry (`""` in
the wizard flow), `compile` the regex compiler (`re.compile`).  Parameter
lookups happen in source order; a missing key's `KeyError` aborts the call
(`none`).  The flat and the paged branch are two independent `if`s on the
input hierarchy kind, as in the source; tasks are appended to the Job in
discovery order. -/
def _analyze_txt_config (config_string : String) (entries : List String)
    (config_dir : String) (parameters : ConfigParams)
    (compile : String → CompiledRegex) : Option Job := do
  let is_hp ← pget parameters PPN_JOB_IS_HIERARCHY_PREFIX
  let tasks_root_directory := norm_join config_dir is_hp
  let os_hp ← pget parameters PPN_JOB_OS_HIERARCHY_PREFIX
  let sync_map_root_directory := norm_join config_dir os_hp
  let job_os_hierarchy_type ← pget parameters PPN_JOB_OS_HIERARCHY_TYPE
  let text_file_relative_path ← pget parameters PPN_JOB_IS_TEXT_FILE_RELATIVE_PATH
  let text_rgx_string ← pget parameters PPN_JOB_IS_TEXT_FILE_NAME_REGEX
  let text_file_name_regex := compile text_rgx_string
  let audio_file_relative_path ← pget parameters PPN_JOB_IS_AUDIO_FILE_RELATIVE_PATH
  let audio_rgx_string ← pget parameters PPN_JOB_IS_AUDIO_FILE_NAME_REGEX
  let audio_file_name_regex := compile audio_rgx_string
  let is_ht ← pget parameters PPN_JOB_IS_HIERARCHY_TYPE
  let flat_tasks ←
    if is_ht = HierarchyType_FLAT then
      let text_files := _find_files entries tasks_root_directory
        (some text_file_relative_path) text_file_name_regex
      let audio_files := _find_files entries tasks_root_directory
        (some audio_file_relative_path) audio_file_name_regex
      (_match_files_flat_hierarchy text_files audio_files).mapM
        (fun task_info => _create_task task_info parameters sync_map_root_directory
          job_os_hierarchy_type)
    else some []
  let paged_tasks ←
    if is_ht = HierarchyType_PAGED then do
      let dir_rgx_string ← pget parameters PPN_JOB_IS_TASK_DIRECTORY_NAME_REGEX
      let matched_directories := _match_directories entries tasks_root_directory
        (compile dir_rgx_string)
      _paged_tasks entries tasks_root_directory (some text_file_relative_path)
        (some audio_file_relative_path) text_file_name_regex audio_file_name_regex
        parameters sync_map_root_directory job_os_hierarchy_type matched_directories
    else some []
  some { config_string := config_string, tasks := flat_tasks ++ paged_tasks }

/-! ### `analyze` (src/aeneas/analyzecontainer.py:50-67) -/

/-- The container boundary (§6): configuration presence flags, the two
configuration entry paths, the entry list and the entry reader. -/
structure Container where
  has_config_xml : Bool
  has_config_txt : Bool
  entry_config_xml : String
  entry_config_txt : String
  entries : List String
  read_entry : String → String

/-- Which branch `analyze` takes. -/
inductive AnalyzeBranch where
  | xml
  | txt
  | noConfig
deriving DecidableEq, Repr

/-- The branch selection and configuration read of `analyze`
(src/aeneas/analyzecontainer.py:50-67 with the reads at lines 270-275 and
103-108): with an XML configuration present, the XML config entry is read
and analyzed, regardless of a TXT configuration; otherwise with a TXT
configuration present, the TXT config entry is read; otherwise `None`.
The subsequent interpretation of the chosen configuration's contents is the
excluded parsing boundary, so `analyze` is embedded up to the branch taken
and the configuration contents it reads. -/
def analyze_config_read (c : Container) : Option (AnalyzeBranch × String) :=
  if c.has_config_xml then some (AnalyzeBranch.xml, c.read_entry c.entry_config_xml)
  else if c.has_config_txt then some (AnalyzeBranch.txt, c.read_entry c.entry_config_txt)
  else none

/-! ## Helper lemmas -/

theorem containsSub_nil_pat (s : List Char) : containsSub [] s = true := by
  cases s <;> simp [containsSub, dropPrefixOpt]

theorem replFuel_no_occ (pat rep : List Char) :
    ∀ (f : Nat) (s : List Char), containsSub pat s = false → replFuel pat rep f s = s := by
  intro f
  induction f with
  | zero => intro s _; rfl
  | succ f ih =>
    intro s h
    cases s with
    | nil => rfl
    | cons c cs =>
      have h' : (dropPrefixOpt pat (c :: cs)).isSome = false ∧ containsSub pat cs = false := by
        simpa [containsSub, Bool.or_eq_false_iff] using h
      cases hd : dropPrefixOpt pat (c :: cs) with
      | some r => rw [hd] at h'; simp at h'
      | none => simp [replFuel, hd, ih cs h'.2]

theorem pyReplaceS_no_occ (s old new : String)
    (h : containsSub old.data s.data = false) : pyReplaceS s old new = s := by
  cases hs : old.data with
  | nil => rw [hs, containsSub_nil_pat] at h; cases h
  | cons o os =>
    unfold pyReplaceS pyReplaceL
    rw [hs] at h ⊢
    rw [replFuel_no_occ (o :: os) new.data s.data.length s.data h]

/-! ## C6 -/

/-- C6: for every root, identifier, output file name, the computed sync-map
path equals: Paged kind — the root joined with the identifier, then with the
file name, with every remaining placeholder occurrence replaced by the
identifier; Flat kind — the file name joined directly onto the root with the
same substitution. -/
theorem C6_sync_map_path (root custom_id file_name : String) :
    _compute_sync_map_file_path root HierarchyType_PAGED custom_id file_name
      = pyReplaceS (norm_join (norm_join root custom_id) file_name)
          PPV_OS_TASK_PREFIX custom_id
    ∧ _compute_sync_map_file_path root HierarchyType_FLAT custom_id file_name
      = pyReplaceS (norm_join root file_name) PPV_OS_TASK_PREFIX custom_id := by
  constructor
  · simp [_compute_sync_map_file_path]
  · simp [_compute_sync_map_file_path, HierarchyType_FLAT, HierarchyType_PAGED]

/-! ## C9 -/

/-- C9 (counterexample): the identifier `"PREFIX"` does not contain the
placeholder token, yet substituting it into the template `"$$PREFIX"`
yields `"$PREFIX"`, which still contains the token, and applying the
substitution again changes the string — so substitution with a
token-free identifier is neither occurrence-free nor idempotent. -/
theorem C9_placeholder_subst_counterexample :
    containsSub PPV_OS_TASK_PREFIX.data "PREFIX".data = false
    ∧ _replace_placeholder (some "$$PREFIX") "PREFIX" = some "$PREFIX"
    ∧ containsSub PPV_OS_TASK_PREFIX.data "$PREFIX".data = true
    ∧ _replace_placeholder (some "$PREFIX") "PREFIX" = some "PREFIX"
    ∧ ("PREFIX" : String) ≠ "$PREFIX" := by decide

/-- C9 (amended): substituting identifier `"ch01"` into the template
`placeholder ++ "/audio.smil"` yields `"ch01/audio.smil"`, which contains no
remaining placeholder occurrence; and the substitution is a no-op on every
string containing no placeholder occurrence — hence idempotent whenever the
first substitution leaves no occurrence (which an identifier merely not
containing the token does not guarantee, see the counterexample). -/
theorem C9_placeholder_subst_amended :
    (_replace_placeholder (some ( PPV_OS_TASK_PREFIX ++ "/audio.smil")) "ch01"
        = some "ch01/audio.smil"
      ∧ containsSub PPV_OS_TASK_PREFIX.data "ch01/audio.smil".data = false)
    ∧ ∀ (s custom_id : String), containsSub PPV_OS_TASK_PREFIX.data s.data = false →
        _replace_placeholder (some s) custom_id = some s := by
  refine ⟨⟨by decide, by decide⟩, ?_⟩
  intro s custom_id h
  simp [_replace_placeholder, pyReplaceS_no_occ _ _ _ h]

/-- Witness for C9 (amended): re-substitution is a no-op on the concrete
already-resolved string `"ch01/audio.smil"`. -/
theorem C9_placeholder_subst_amended_witness :
    _replace_placeholder (some "ch01/audio.smil") "ch01" = some "ch01/audio.smil" :=
  C9_placeholder_subst_amended.2 "ch01/audio.smil" "ch01" (by decide)

/-! ## C10 -/

/-- C10: whenever the container reports a structured (XML) configuration,
`analyze` takes the XML branch and reads the XML configuration entry,
regardless of whether a simple (TXT) configuration is also present. -/
theorem C10_xml_branch (c : Container) (h : c.has_config_xml = true) :
    analyze_config_read c = some (AnalyzeBranch.xml, c.read_entry c.entry_config_xml) := by
  simp [analyze_config_read, h]

/-- Witness for C10: a container with both configuration forms present takes
the XML branch and reads only the XML entry. -/
theorem C10_xml_branch_witness :
    analyze_config_read
      { has_config_xml := true, has_config_txt := true, entry_config_xml := "config.xml",
        entry_config_txt := "config.txt", entries := [], read_entry := fun p => p }
      = some (AnalyzeBranch.xml, "config.xml") :=
  C10_xml_branch _ rfl

/-! ## C5 -/

/-- C5: the Task's language is the Task-scope language key when present,
else the Job-scope language key; when both are absent, `_create_task`
aborts (`none`), and that abort propagates through the task-construction
loop rather than silently omitting the Task. -/
theorem C5_create_task_language (task_info : String × String × String)
    (parameters : ConfigParams) (root ht : String) :
    (∀ l t, pget parameters PPN_TASK_LANGUAGE = some l →
        _create_task task_info parameters root ht = some t → t.language = l)
    ∧ (∀ l t, pget parameters PPN_TASK_LANGUAGE = none →
        pget parameters PPN_JOB_LANGUAGE = some l →
        _create_task task_info parameters root ht = some t → t.language = l)
    ∧ (pget parameters PPN_TASK_LANGUAGE = none →
        pget parameters PPN_JOB_LANGUAGE = none →
        _create_task task_info parameters root ht = none)
    ∧ (∀ (pre post : List (String × String × String)),
        _create_task task_info parameters root ht = none →
        (pre ++ task_info :: post).mapM
          (fun ti => _create_task ti parameters root ht) = none) := by
  refine ⟨?_, ?_, ?_, ?_⟩
  · intro l t h1 h2
    cases ho : pget parameters PPN_TASK_OS_FILE_NAME with
    | none => simp [_create_task, resolveLanguage, h1, ho] at h2
    | some f =>
      simp [_create_task, resolveLanguage, h1, ho] at h2
      rw [← h2]
  · intro l t h0 h1 h2
    cases ho : pget parameters PPN_TASK_OS_FILE_NAME with
    | none => simp [_create_task, resolveLanguage, h0, h1, ho] at h2
    | some f =>
      simp [_create_task, resolveLanguage, h0, h1, ho] at h2
      rw [← h2]
  · intro h0 h1
    simp [_create_task, resolveLanguage, h0, h1]
  · intro pre post h
    induction pre with
    | nil => rw [List.nil_append, List.mapM_cons, h]; rfl
    | cons x xs ih =>
      rw [List.cons_append, List.mapM_cons, ih]
      cases _create_task x parameters root ht <;> simp

/-- Witness for C5: with an empty configuration (both language keys absent),
Task construction aborts. -/
theorem C5_create_task_language_witness :
    _create_task ("ch01", "text/ch01.txt", "audio/ch01.mp3") [] "out" HierarchyType_FLAT
      = none :=
  (C5_create_task_language ("ch01", "text/ch01.txt", "audio/ch01.mp3") []
    "out" HierarchyType_FLAT).2.2.1 rfl rfl

/-! ## C1 -/

/-- C1 (counterexample): with target `"text"`, the entry `"text2/a.txt"` —
which does not start with `"text"` plus a separator and is not `"text"`
itself — still qualifies in `_find_files` (pattern `"a.txt"`, a literal
substring search), because the source tests `entry.startswith(target)` on
raw strings with no separator-boundary check. -/
theorem C1_find_files_counterexample :
    _find_files ["text2/a.txt"] "text" none (litRegex "a.txt") = ["text2/a.txt"]
    ∧ pyStartswith "text2/a.txt" ("text" ++ "/") = false
    ∧ ("text2/a.txt" : String) ≠ "text" := by decide

/-- C1 (amended): an entry qualifies in `_find_files` iff it starts with the
computed target as a plain string prefix (no separator boundary is enforced,
so an entry whose leading directory name merely has the target as a string
prefix does qualify) and the remainder of the entry after `len(target)+1`
characters matches the pattern as a search anywhere in the remainder (not a
full match); the result is sorted lexicographically. -/
theorem C1_find_files_amended (entries : List String) (root : String)
    (relative_path : Option String) (rgx : CompiledRegex) :
    (∀ e, e ∈ _find_files entries root relative_path rgx ↔
        (e ∈ entries ∧ pyStartswith e (findFilesTarget root relative_path) = true
          ∧ rgx.search (pyDrop e ((findFilesTarget root relative_path).length + 1)) = true))
    ∧ List.Sorted pyLe (_find_files entries root relative_path rgx) := by
  constructor
  · intro e
    simp [_find_files, mem_pySorted, List.mem_filter, Bool.and_eq_true, and_assoc]
  · exact pySorted_sorted _

/-! ## C3 -/

/-- C3 (counterexample): with root `"foo"`, the entry `"foo12/a"` does not
start with `"foo"` plus a separator, yet `_match_directories` (pattern
`"2"`, literal anchored match) returns `["2"]` for it: the source tests
`entry.startswith(root)` with no separator boundary and then drops
`len(root)+1` characters. -/
theorem C3_match_directories_counterexample :
    _match_directories ["foo12/a"] "foo" (litRegex "2") = ["2"]
    ∧ pyStartswith "foo12/a" ("foo" ++ "/") = false := by decide

theorem matchDirCandidate_eq_some_iff (root : String) (rgx : CompiledRegex) (e d : String) :
    matchDirCandidate root rgx e = some d ↔
      (pyStartswith e root = true ∧ rgx.matchAtStart d = true ∧
        ∃ rest, pySplit '/' (pyDrop e (root.length + 1)) = d :: rest ∧ rest ≠ []) := by
  constructor
  · intro h
    unfold matchDirCandidate at h
    split at h
    · rename_i hs
      split at h
      · rename_i p q qs heq
        split at h
        · rename_i hm
          injection h with h
          subst h
          exact ⟨hs, hm, q :: qs, heq, by simp⟩
        · cases h
      · cases h
    · cases h
  · rintro ⟨hs, hm, rest, hsplit, hrest⟩
    unfold matchDirCandidate
    rw [if_pos hs]
    cases rest with
    | nil => exact absurd rfl hrest
    | cons q qs =>
      rw [hsplit]
      simp [hm]

/-- C3 (amended): the result of `_match_directories` contains exactly the
first components of the split remainders of entries that start with `root`
as a plain string prefix (no separator boundary: the remainder is the entry
with its first `len(root)+1` characters dropped), where the split on the
separator yields at least two components and the first component matches
the pattern anchored at the start of the name; the result is deduplicated
and sorted lexicographically.  For entries that do start with `root` plus a
separator this coincides with the original claim; the `startswith` flaw
admits further entries (see the counterexample). -/
theorem C3_match_directories_amended (entries : List String) (root : String)
    (rgx : CompiledRegex) :
    (∀ d, d ∈ _match_directories entries root rgx ↔
      ∃ e ∈ entries, pyStartswith e root = true ∧ rgx.matchAtStart d = true ∧
        ∃ rest, pySplit '/' (pyDrop e (root.length + 1)) = d :: rest ∧ rest ≠ [])
    ∧ List.Sorted pyLe (_match_directories entries root rgx)
    ∧ (_match_directories entries root rgx).Nodup := by
  refine ⟨?_, pySorted_sorted _, ?_⟩
  · intro d
    simp only [_match_directories, mem_pySorted, List.mem_dedup, List.mem_filterMap,
      matchDirCandidate_eq_some_iff]
  · exact ((pySorted_perm _).nodup_iff).mpr (List.nodup_dedup _)

/-! ## Dict-model lemmas (shared by the flat-pairing claims) -/

theorem dictLookup_dictInsert (d : List (String × String)) (k v k0 : String) :
    dictLookup (dictInsert d k v) k0 = if k0 = k then some v else dictLookup d k0 := by
  induction d with
  | nil => simp [dictInsert, dictLookup]
  | cons p rest ih =>
    obtain ⟨k', v'⟩ := p
    by_cases h1 : k' = k
    · subst h1
      by_cases h0 : k0 = k'
      · subst h0; simp [dictInsert, dictLookup]
      · simp [dictInsert, dictLookup, h0]
    · have hins : dictInsert ((k', v') :: rest) k v = (k', v') :: dictInsert rest k v := by
        simp [dictInsert, h1]
      rw [hins]
      by_cases h0 : k0 = k'
      · rw [h0]
        simp [dictLookup, h1]
      · simp [dictLookup, h0, ih]

theorem getLast?_cons_or {α : Type} (a : α) (l : List α) :
    (a :: l).getLast? = some (l.getLast?.getD a) := by
  cases l with
  | nil => rfl
  | cons b bs =>
    rw [List.getLast?_cons_cons]
    cases h : (b :: bs).getLast? with
    | none => rw [List.getLast?_eq_none_iff] at h; cases h
    | some x => rfl

theorem lastWithKey_nil (k : String) : lastWithKey k [] = none := rfl

theorem lastWithKey_cons (k f : String) (files : List String) :
    lastWithKey k (f :: files) =
      if file_name_without_extension f = k then some ((lastWithKey k files).getD f)
      else lastWithKey k files := by
  unfold lastWithKey
  by_cases hp : file_name_without_extension f = k
  · rw [List.filter_cons_of_pos (by simp [hp]), if_pos hp, getLast?_cons_or]
  · rw [List.filter_cons_of_neg (by simp [hp]), if_neg hp]

theorem dictLookup_buildDict_aux (k : String) :
    ∀ (files : List String) (acc : List (String × String)),
      dictLookup (files.foldl (fun d f => dictInsert d (file_name_without_extension f) f) acc) k
        = (lastWithKey k files).or (dictLookup acc k) := by
  intro files
  induction files with
  | nil => intro acc; rw [List.foldl_nil, lastWithKey_nil, Option.none_or]
  | cons f rest ih =>
    intro acc
    rw [List.foldl_cons, ih, lastWithKey_cons]
    by_cases hp : file_name_without_extension f = k
    · rw [if_pos hp]
      cases h : lastWithKey k rest with
      | some t => rfl
      | none =>
        rw [Option.none_or, dictLookup_dictInsert, if_pos hp.symm]
        rfl
    · rw [if_neg hp]
      cases h : lastWithKey k rest with
      | some t => rfl
      | none =>
        rw [Option.none_or, Option.none_or, dictLookup_dictInsert,
          if_neg (fun hh => hp hh.symm)]

/-- The value a built dict maps a key to is the last entry of the file list
with that pairing key — Python's dict last-write-wins. -/
theorem dictLookup_buildDict (files : List String) (k : String) :
    dictLookup (buildDict files) k = lastWithKey k files := by
  rw [buildDict, dictLookup_buildDict_aux]
  cases h : lastWithKey k files <;> rfl

theorem map_fst_dictInsert (d : List (String × String)) (k v : String) :
    (dictInsert d k v).map Prod.fst =
      if k ∈ d.map Prod.fst then d.map Prod.fst else d.map Prod.fst ++ [k] := by
  induction d with
  | nil => simp [dictInsert]
  | cons p rest ih =>
    obtain ⟨k', v'⟩ := p
    by_cases h : k' = k
    · subst h; simp [dictInsert]
    · have hkk : ¬(k = k') := fun hh => h hh.symm
      by_cases hm : k ∈ rest.map Prod.fst <;>
        simp [dictInsert, h, ih, hm, hkk]

theorem map_fst_foldl_nodup :
    ∀ (files : List String) (acc : List (String × String)),
      (acc.map Prod.fst).Nodup →
      ((files.foldl (fun d f => dictInsert d (file_name_without_extension f) f) acc).map
        Prod.fst).Nodup := by
  intro files
  induction files with
  | nil => intro acc h; simpa using h
  | cons f rest ih =>
    intro acc h
    rw [List.foldl_cons]
    apply ih
    rw [map_fst_dictInsert]
    by_cases hm : file_name_without_extension f ∈ acc.map Prod.fst
    · rw [if_pos hm]; exact h
    · rw [if_neg hm]
      simp [List.nodup_append, h, hm]

/-- Python dict keys are unique. -/
theorem buildDict_keys_nodup (files : List String) :
    ((buildDict files).map Prod.fst).Nodup :=
  map_fst_foldl_nodup files [] (by simp)

theorem mem_iff_dictLookup :
    ∀ {d : List (String × String)}, (d.map Prod.fst).Nodup →
      ∀ {k v : String}, ((k, v) ∈ d ↔ dictLookup d k = some v) := by
  intro d
  induction d with
  | nil => intro _ k v; simp [dictLookup]
  | cons p rest ih =>
    obtain ⟨k', v'⟩ := p
    intro hnd k v
    have hnd' : (k' :: rest.map Prod.fst).Nodup := by simpa using hnd
    have hk'n : k' ∉ rest.map Prod.fst := (List.nodup_cons.mp hnd').1
    have hrest : (rest.map Prod.fst).Nodup := (List.nodup_cons.mp hnd').2
    by_cases h : k = k'
    · have hlook : dictLookup ((k', v') :: rest) k = some v' := by
        simp [dictLookup, h]
      rw [hlook]
      constructor
      · intro hm
        rcases List.mem_cons.mp hm with he | hm2
        · injection he with _ h2; rw [h2]
        · refine absurd ?_ hk'n
          have := List.mem_map_of_mem Prod.fst hm2
          rw [← h]
          exact this
      · intro hl
        injection hl with h1
        rw [← h1, h]
        exact List.mem_cons_self _ _
    · have hlook : dictLookup ((k', v') :: rest) k = dictLookup rest k := by
        simp [dictLookup, h]
      rw [hlook]
      constructor
      · intro hm
        rcases List.mem_cons.mp hm with he | hm2
        · injection he with h1 _; exact absurd h1 h
        · exact (ih hrest).mp hm2
      · intro hl
        exact List.mem_cons_of_mem _ ((ih hrest).mpr hl)

/-- Membership in the flat pairing: a triple is emitted exactly when its key
maps in both dicts to the triple's text and audio entries, i.e. when the
text and audio components are the last entries with that key in their
respective input lists. -/
theorem mem_match_flat_iff (tf af : List String) (k t a : String) :
    (k, t, a) ∈ _match_files_flat_hierarchy tf af ↔
      (lastWithKey k tf = some t ∧ lastWithKey k af = some a) := by
  unfold _match_files_flat_hierarchy
  rw [List.mem_filterMap]
  constructor
  · rintro ⟨kv, hkv, hg⟩
    cases hl : dictLookup (buildDict af) kv.1 with
    | none => rw [hl] at hg; cases hg
    | some audio =>
      rw [hl] at hg
      injection hg with h1
      have hk : kv.1 = k := congrArg (fun x => x.1) h1
      have ht : kv.2 = t := congrArg (fun x => x.2.1) h1
      have ha : audio = a := congrArg (fun x => x.2.2) h1
      subst ha
      constructor
      · rw [← dictLookup_buildDict, ← hk, ← ht]
        exact (mem_iff_dictLookup (buildDict_keys_nodup tf)).mp hkv
      · rw [← dictLookup_buildDict, ← hk]
        exact hl
  · rintro ⟨h1, h2⟩
    rw [← dictLookup_buildDict] at h1 h2
    refine ⟨(k, t), (mem_iff_dictLookup (buildDict_keys_nodup tf)).mpr h1, ?_⟩
    rw [h2]

theorem match_flat_keys_sublist (tf af : List String) :
    ((_match_files_flat_hierarchy tf af).map Prod.fst).Sublist
      ((buildDict tf).map Prod.fst) := by
  unfold _match_files_flat_hierarchy
  generalize buildDict tf = d
  induction d with
  | nil => simp
  | cons kv rest ih =>
    cases hl : dictLookup (buildDict af) kv.1 with
    | none =>
      rw [List.filterMap_cons, hl, List.map_cons]
      exact ih.cons _
    | some audio =>
      rw [List.filterMap_cons, hl, List.map_cons, List.map_cons]
      exact ih.cons₂ _

theorem lastWithKey_mem {k t : String} {files : List String}
    (h : lastWithKey k files = some t) :
    t ∈ files ∧ file_name_without_extension t = k := by
  unfold lastWithKey at h
  have hm : t ∈ (files.filter (fun f => file_name_without_extension f = k)).getLast? := by
    rw [Option.mem_def]; exact h
  rcases List.mem_getLast?_eq_getLast hm with ⟨hne, heq⟩
  have ht : t ∈ files.filter (fun f => file_name_without_extension f = k) := by
    rw [heq]; exact List.getLast_mem hne
  have := List.mem_filter.mp ht
  exact ⟨this.1, by simpa using this.2⟩

theorem lastWithKey_isSome_iff (k : String) (files : List String) :
    (∃ f ∈ files, file_name_without_extension f = k) ↔
      (lastWithKey k files).isSome = true := by
  unfold lastWithKey
  rw [List.getLast?_isSome]
  constructor
  · rintro ⟨f, hf, hk⟩ hnil
    rw [List.filter_eq_nil_iff] at hnil
    exact hnil f hf (by simp [hk])
  · intro hs
    obtain ⟨x, hx⟩ := List.exists_mem_of_ne_nil _ hs
    have := List.mem_filter.mp hx
    exact ⟨x, this.1, by simpa using this.2⟩

theorem lastWithKey_eq_iff_of_nodup {files : List String}
    (h : (files.map file_name_without_extension).Nodup) (k t : String) :
    lastWithKey k files = some t ↔
      (t ∈ files ∧ file_name_without_extension t = k) := by
  constructor
  · exact lastWithKey_mem
  · rintro ⟨htm, htk⟩
    have hnd : files.Nodup := List.Nodup.of_map _ h
    have htf : t ∈ files.filter (fun f => file_name_without_extension f = k) :=
      List.mem_filter.mpr ⟨htm, by simp [htk]⟩
    have hall : ∀ x ∈ files.filter (fun f => file_name_without_extension f = k), x = t := by
      intro x hx
      have hx' := List.mem_filter.mp hx
      refine List.inj_on_of_nodup_map h hx'.1 htm ?_
      have : file_name_without_extension x = k := by simpa using hx'.2
      rw [this, htk]
    have hfnd : (files.filter (fun f => file_name_without_extension f = k)).Nodup :=
      hnd.filter _
    have hfil : files.filter (fun f => file_name_without_extension f = k) = [t] := by
      cases hfe : files.filter (fun f => file_name_without_extension f = k) with
      | nil => rw [hfe] at htf; cases htf
      | cons x xs =>
        rw [hfe] at htf hall hfnd
        have hx : x = t := hall x (by simp)
        subst hx
        cases xs with
        | nil => rfl
        | cons y ys =>
          have hy : y = x := hall y (by simp)
          rw [List.nodup_cons] at hfnd
          exact absurd (hy ▸ hfnd.1) (by simp)
    unfold lastWithKey
    rw [hfil]
    rfl

/-! ## C2 -/

/-- C2 (counterexample): the pairing key drops directory components, so the
text entry `"a/x.txt"` and the audio entry `"b/x.mp3"`, in different
directories, DO pair (both have key `"x"`); and the pair for `"a/x.txt"` /
`"a/x.mp3"` carries key `"x"`, not `"a/x"` as the claim states. -/
theorem C2_flat_pairing_key_counterexample :
    _match_files_flat_hierarchy ["a/x.txt"] ["b/x.mp3"] = [("x", "a/x.txt", "b/x.mp3")]
    ∧ _match_files_flat_hierarchy ["a/x.txt"] ["a/x.mp3"] = [("x", "a/x.txt", "a/x.mp3")]
    ∧ ("x" : String) ≠ "a/x" := by decide

/-- C2 (amended): the pairing key of each entry is its base file name —
directory components dropped — with the final extension removed (pinned by
the docstring examples of `_match_files_flat_hierarchy`); two singleton
lists pair exactly when those keys coincide, producing the single triple
`(key, text, audio)` — so `a/x.txt` pairs with `b/x.mp3` as well as with
`a/x.mp3`, under key `x`. -/
theorem C2_flat_pairing_key_amended (t a : String) :
    _match_files_flat_hierarchy [t] [a]
      = if file_name_without_extension t = file_name_without_extension a
        then [(file_name_without_extension t, t, a)] else [] := by
  unfold _match_files_flat_hierarchy buildDict
  rw [List.foldl_cons, List.foldl_nil, List.foldl_cons, List.foldl_nil]
  by_cases h : file_name_without_extension t = file_name_without_extension a
  · rw [if_pos h]
    simp [dictInsert, dictLookup, List.filterMap, h]
  · rw [if_neg h]
    simp [dictInsert, dictLookup, List.filterMap, h]

/-! ## C7 -/

/-- C7: a triple is emitted exactly for the keys present in both key-to-entry
mappings — equivalently, exactly when the key has a matching entry in both
input lists — each key at most once, and the entries used are the last
entries with that key in their respective lists (Python dict last-write-wins). -/
theorem C7_flat_pairing_lastwins (tf af : List String) :
    (∀ k t a, (k, t, a) ∈ _match_files_flat_hierarchy tf af ↔
        (lastWithKey k tf = some t ∧ lastWithKey k af = some a))
    ∧ ((_match_files_flat_hierarchy tf af).map Prod.fst).Nodup
    ∧ (∀ k, k ∈ (_match_files_flat_hierarchy tf af).map Prod.fst ↔
        ((∃ f ∈ tf, file_name_without_extension f = k)
          ∧ (∃ f ∈ af, file_name_without_extension f = k))) := by
  refine ⟨fun k t a => mem_match_flat_iff tf af k t a,
    (match_flat_keys_sublist tf af).nodup (buildDict_keys_nodup tf), ?_⟩
  intro k
  rw [List.mem_map]
  constructor
  · rintro ⟨⟨k0, t, a⟩, hm, hk⟩
    have hk' : k0 = k := hk
    rw [← hk']
    have h := (mem_match_flat_iff tf af k0 t a).mp hm
    constructor
    · rw [lastWithKey_isSome_iff]
      rw [h.1]
      rfl
    · rw [lastWithKey_isSome_iff]
      rw [h.2]
      rfl
  · rintro ⟨h1, h2⟩
    obtain ⟨t, ht⟩ := Option.isSome_iff_exists.mp ((lastWithKey_isSome_iff k tf).mp h1)
    obtain ⟨a, ha⟩ := Option.isSome_iff_exists.mp ((lastWithKey_isSome_iff k af).mp h2)
    exact ⟨(k, t, a), (mem_match_flat_iff tf af k t a).mpr ⟨ht, ha⟩, rfl⟩

/-! ## C8 -/

/-- C8 (counterexample): with duplicate keys inside one input list, pairing
is NOT invariant under permutation of that list: the two text entries
`"a/x.txt"` and `"b/x.txt"` share key `"x"`, and swapping them changes which
text entry the emitted triple carries (last one wins). -/
theorem C8_flat_pairing_perm_counterexample :
    List.Perm ["a/x.txt", "b/x.txt"] ["b/x.txt", "a/x.txt"]
    ∧ ("x", "b/x.txt", "c/x.mp3")
        ∈ _match_files_flat_hierarchy ["a/x.txt", "b/x.txt"] ["c/x.mp3"]
    ∧ ("x", "b/x.txt", "c/x.mp3")
        ∉ _match_files_flat_hierarchy ["b/x.txt", "a/x.txt"] ["c/x.mp3"] := by decide

/-- C8 (amended): flat pairing is commutative in input order whenever each
input list has pairwise-distinct pairing keys: permuting the text list or
the audio list then yields the same set of emitted triples.  (With duplicate
keys in one list, a permutation can change which entry of that key wins —
see the counterexample.) -/
theorem C8_flat_pairing_perm_amended (tf tf' af af' : List String)
    (htp : tf.Perm tf') (hap : af.Perm af')
    (hnt : (tf.map file_name_without_extension).Nodup)
    (hna : (af.map file_name_without_extension).Nodup) :
    ∀ x, x ∈ _match_files_flat_hierarchy tf af ↔
      x ∈ _match_files_flat_hierarchy tf' af' := by
  rintro ⟨k, t, a⟩
  have hnt' : (tf'.map file_name_without_extension).Nodup :=
    ((htp.map file_name_without_extension).nodup_iff).mp hnt
  have hna' : (af'.map file_name_without_extension).Nodup :=
    ((hap.map file_name_without_extension).nodup_iff).mp hna
  rw [mem_match_flat_iff, mem_match_flat_iff,
    lastWithKey_eq_iff_of_nodup hnt, lastWithKey_eq_iff_of_nodup hnt',
    lastWithKey_eq_iff_of_nodup hna, lastWithKey_eq_iff_of_nodup hna',
    htp.mem_iff, hap.mem_iff]

/-- Witness for C8 (amended): a concrete permutation of a duplicate-free
text list leaves the emitted set unchanged. -/
theorem C8_flat_pairing_perm_amended_witness :
    ("x", "a/x.txt", "c/x.mp3")
        ∈ _match_files_flat_hierarchy ["a/x.txt", "b/y.txt"] ["c/x.mp3"] ↔
      ("x", "a/x.txt", "c/x.mp3")
        ∈ _match_files_flat_hierarchy ["b/y.txt", "a/x.txt"] ["c/x.mp3"] :=
  C8_flat_pairing_perm_amended ["a/x.txt", "b/y.txt"] ["b/y.txt", "a/x.txt"]
    ["c/x.mp3"] ["c/x.mp3"] (by decide) (by decide) (by decide) (by decide)
    ("x", "a/x.txt", "c/x.mp3")

/-! ## C4 -/

theorem mapM_eq_filterMap_of_ne_none {α β : Type} (f : α → Option β) :
    ∀ (l : List α), (∀ d ∈ l, f d ≠ none) → l.mapM f = some (l.filterMap f) := by
  intro l
  induction l with
  | nil => intro _; rfl
  | cons d ds ih =>
    intro h
    rw [List.mapM_cons, List.filterMap_cons]
    cases hf : f d with
    | none => exact absurd hf (h d (List.mem_cons_self _ _))
    | some o =>
      rw [ih (fun x hx => h x (List.mem_cons_of_mem _ hx))]
      rfl

/-- C4: in the paged loop, a directory whose per-stream filters find exactly
one text and one audio entry builds a Task; a directory with more than one
text entry is skipped with the "ambiguous text" diagnostic; otherwise one
with more than one audio entry is skipped with the "ambiguous audio"
diagnostic; otherwise (no 1-and-1 pair) it is skipped silently; and when no
directory's Task construction raises, the loop processes every directory and
still returns the Job's task list, skipped directories contributing
nothing. -/
theorem C4_paged_ambiguity_skip (entries : List String) (tasks_root : String)
    (text_rel audio_rel : Option String) (text_rgx audio_rgx : CompiledRegex)
    (parameters : ConfigParams) (sync_root os_ht : String) :
    (∀ d t0 a0,
        _find_files entries (norm_join tasks_root d) text_rel text_rgx = [t0] →
        _find_files entries (norm_join tasks_root d) audio_rel audio_rgx = [a0] →
        _paged_dir_outcome entries tasks_root text_rel audio_rel text_rgx audio_rgx
            parameters sync_root os_ht d
          = Option.map PageOutcome.builtTask
              (_create_task (d, t0, a0) parameters sync_root os_ht))
    ∧ (∀ d,
        1 < (_find_files entries (norm_join tasks_root d) text_rel text_rgx).length →
        _paged_dir_outcome entries tasks_root text_rel audio_rel text_rgx audio_rgx
            parameters sync_root os_ht d = some PageOutcome.ambiguousText)
    ∧ (∀ d,
        (_find_files entries (norm_join tasks_root d) text_rel text_rgx).length ≤ 1 →
        1 < (_find_files entries (norm_join tasks_root d) audio_rel audio_rgx).length →
        _paged_dir_outcome entries tasks_root text_rel audio_rel text_rgx audio_rgx
            parameters sync_root os_ht d = some PageOutcome.ambiguousAudio)
    ∧ (∀ d,
        (_find_files entries (norm_join tasks_root d) text_rel text_rgx).length ≤ 1 →
        (_find_files entries (norm_join tasks_root d) audio_rel audio_rgx).length ≤ 1 →
        ¬((_find_files entries (norm_join tasks_root d) text_rel text_rgx).length = 1
          ∧ (_find_files entries (norm_join tasks_root d) audio_rel audio_rgx).length = 1) →
        _paged_dir_outcome entries tasks_root text_rel audio_rel text_rgx audio_rgx
            parameters sync_root os_ht d = some PageOutcome.emptyDir)
    ∧ (∀ matched : List String,
        (∀ d ∈ matched,
          _paged_dir_outcome entries tasks_root text_rel audio_rel text_rgx audio_rgx
            parameters sync_root os_ht d ≠ none) →
        _paged_tasks entries tasks_root text_rel audio_rel text_rgx audio_rgx parameters
            sync_root os_ht matched
          = some (matched.filterMap (fun d =>
              (_paged_dir_outcome entries tasks_root text_rel audio_rel text_rgx audio_rgx
                parameters sync_root os_ht d).bind builtTaskOf))) := by
  refine ⟨?_, ?_, ?_, ?_, ?_⟩
  · intro d t0 a0 h1 h2
    simp only [_paged_dir_outcome]
    rw [h1, h2]
  · intro d h
    simp only [_paged_dir_outcome]
    rcases htf : _find_files entries (norm_join tasks_root d) text_rel text_rgx with
      _ | ⟨x, _ | ⟨y, rest⟩⟩
    · rw [htf] at h; simp at h
    · rw [htf] at h; simp at h
    · rcases haf : _find_files entries (norm_join tasks_root d) audio_rel audio_rgx with
        _ | ⟨b, bs⟩ <;> simp
  · intro d h1 h2
    rcases haf : _find_files entries (norm_join tasks_root d) audio_rel audio_rgx with
      _ | ⟨b, _ | ⟨c, bs⟩⟩
    · rw [haf] at h2; simp at h2
    · rw [haf] at h2; simp at h2
    · simp only [_paged_dir_outcome]
      rw [haf]
      rcases htf : _find_files entries (norm_join tasks_root d) text_rel text_rgx with
        _ | ⟨x, _ | ⟨y, rest⟩⟩
      · simp
      · simp
      · rw [htf] at h1; simp at h1
  · intro d h1 h2 h3
    simp only [_paged_dir_outcome]
    rcases htf : _find_files entries (norm_join tasks_root d) text_rel text_rgx with
      _ | ⟨x, _ | ⟨y, rest⟩⟩
    · rcases haf : _find_files entries (norm_join tasks_root d) audio_rel audio_rgx with
        _ | ⟨b, _ | ⟨c, bs⟩⟩
      · simp
      · simp
      · rw [haf] at h2; simp at h2
    · rcases haf : _find_files entries (norm_join tasks_root d) audio_rel audio_rgx with
        _ | ⟨b, _ | ⟨c, bs⟩⟩
      · simp
      · rw [htf, haf] at h3
        exact absurd ⟨rfl, rfl⟩ h3
      · rw [haf] at h2; simp at h2
    · rw [htf] at h1; simp at h1
  · intro matched h
    unfold _paged_tasks
    rw [mapM_eq_filterMap_of_ne_none _ matched h]
    rw [Option.map_some']
    rw [List.filterMap_filterMap]

/-- Witness for C4: two matched directories, the first with two text files
and one audio file (skipped with the ambiguous-text diagnostic), the second
with exactly one of each (builds its Task); the loop completes and returns
the collected tasks. -/
theorem C4_paged_ambiguity_skip_witness :
    _paged_tasks ["r/1/a.txt", "r/1/b.txt", "r/1/c.mp3", "r/2/d.txt", "r/2/e.mp3"] "r"
        none none (litRegex ".txt") (litRegex ".mp3")
        [( PPN_JOB_LANGUAGE, "en"), ( PPN_TASK_OS_FILE_NAME, "out.smil")]
        "out" HierarchyType_FLAT ["1", "2"]
      = some (["1", "2"].filterMap (fun d =>
          (_paged_dir_outcome ["r/1/a.txt", "r/1/b.txt", "r/1/c.mp3", "r/2/d.txt", "r/2/e.mp3"]
            "r" none none (litRegex ".txt") (litRegex ".mp3")
            [( PPN_JOB_LANGUAGE, "en"), ( PPN_TASK_OS_FILE_NAME, "out.smil")]
            "out" HierarchyType_FLAT d).bind builtTaskOf)) :=
  (C4_paged_ambiguity_skip ["r/1/a.txt", "r/1/b.txt", "r/1/c.mp3", "r/2/d.txt", "r/2/e.mp3"]
    "r" none none (litRegex ".txt") (litRegex ".mp3")
    [( PPN_JOB_LANGUAGE, "en"), ( PPN_TASK_OS_FILE_NAME, "out.smil")]
    "out" HierarchyType_FLAT).2.2.2.2 ["1", "2"] (by decide)

end AnalyzeContainerModel
